import Mathlib

/-!
Verification of the RentRescue contract-analysis core
(`src/lib/contractAnalyzer.ts`) against its natural-language specification.

The TypeScript module is embedded shallowly:

* JavaScript strings are `List Char` (`Str`).
* The values flowing out of `JSON.parse` are modelled with `Option` fields,
  because the TypeScript interface annotations (`GeminiResponse`,
  `AnalysisResult`) are erased at runtime: a field absent from the parsed
  JSON is the value `undefined`, which the code copies around freely and
  which only raises a `TypeError` when a method (`.map`, `.slice`) is
  invoked on it.  `category`/`severity` are plain strings at runtime (the
  source narrows them with a compile-time-only type assertion), so they are
  embedded as `Str` with decidable membership predicates for the fixed
  enumerations.
* The network is a parameter: a `NetEnv` gives, for each endpoint URL and
  request text, the observable outcome of the `fetch` (HTTP failure,
  missing candidate envelope, or the candidate text), and the behaviour of
  `JSON.parse` on the extracted payload text.  `callGeminiAPI` and
  `analyzeContract` also return the list of endpoint URLs actually
  attempted, in order, so that statements about "which endpoints were
  called" are expressible.
* `throw`/`try`/`catch` become `Except JsErr`.
-/

namespace RentRescue

/-- JavaScript strings, embedded as lists of characters. -/
abbrev Str := List Char

/-- The opening-brace character (written by code so that no brace occurs in
a string literal). -/
def openBrace : Char := Char.ofNat 123

/-- The closing-brace character. -/
def closeBrace : Char := Char.ofNat 125

/-- Runtime view of one extracted key detail (interface `KeyDetail`). -/
structure KeyDetail where
  label : Str
  value : Str
  category : Str
deriving DecidableEq, Repr

/-- Runtime view of the `clause` sub-object of a raw flagged clause as it
arrives from the remote service (no `keywords` field; `category` and
`severity` are arbitrary strings at runtime). -/
structure RawClause where
  id : Str
  category : Str
  name : Str
  description : Str
  isMalicious : Bool
  severity : Str
  legalReference : Option Str
  explanation : Str
deriving DecidableEq, Repr

/-- Runtime view of one raw flagged-clause entry of a `GeminiResponse`. -/
structure RawFlaggedClause where
  clause : RawClause
  matchedText : Str
  position : Int
deriving DecidableEq, Repr

/-- A loosely-typed JSON scalar, as `JSON.parse` may deliver either a
number or a string where the interface promised a number. -/
inductive Jval where
  | num : Int → Jval
  | str : Str → Jval
deriving DecidableEq, Repr

/-- Runtime view of the parsed remote response (interface
`GeminiResponse`): every field may be absent (`undefined`), since the
interface is not checked at runtime. -/
structure GeminiResponse where
  summary : Option Str
  keyDetails : Option (List KeyDetail)
  flaggedClauses : Option (List RawFlaggedClause)
  overallRiskScore : Option Jval
  recommendations : Option (List Str)
deriving DecidableEq, Repr

/-- Runtime view of the canonical `ClausePattern` (interface
`ClausePattern`; `category` and `severity` are runtime strings). -/
structure ClausePattern where
  id : Str
  category : Str
  name : Str
  description : Str
  keywords : List Str
  isMalicious : Bool
  severity : Str
  legalReference : Option Str
  explanation : Str
deriving DecidableEq, Repr

/-- Runtime view of the canonical `FlaggedClause`. -/
structure FlaggedClause where
  clause : ClausePattern
  matchedText : Str
  position : Int
deriving DecidableEq, Repr

/-- Runtime view of the canonical `AnalysisResult` produced by
`analyzeContract`: `summary`, `keyDetails` and `overallRiskScore` are
copied from the parsed response without any runtime check, hence may be
absent. -/
structure AnalysisResult where
  summary : Option Str
  keyDetails : Option (List KeyDetail)
  flaggedClauses : List FlaggedClause
  overallRiskScore : Option Jval
  recommendations : List Str
deriving DecidableEq, Repr

/-- The fixed clause-category enumeration of the taxonomy. -/
def categoryEnum : List Str :=
  ["security_deposit", "rent", "termination", "maintenance", "privacy",
   "pets", "subletting", "utilities", "other"].map String.toList

/-- Membership of a runtime category string in the fixed enumeration. -/
def validCategory (c : Str) : Bool := categoryEnum.contains c

/-- The fixed severity enumeration of the taxonomy. -/
def severityEnum : List Str := ["low", "medium", "high"].map String.toList

/-- Membership of a runtime severity string in the fixed enumeration. -/
def validSeverity (s : Str) : Bool := severityEnum.contains s

/-- Errors the module can raise: the configuration error for the missing
API key, the three per-endpoint failures (HTTP failure, bad response
envelope, JSON parse failure), the defensive `new Error` thrown when the
endpoint list is exhausted with no recorded error, and runtime
`TypeError`s from invoking a method on `undefined`. -/
inductive JsErr where
  | config
  | transport (msg : Str)
  | shape
  | parse (msg : Str)
  | exhausted
  | typeError (msg : Str)
deriving DecidableEq, Repr

/-- Observable outcome of one `fetch` of an endpoint: HTTP-level failure
(`!response.ok`), a JSON body without the expected
`candidates[0].content.parts[0].text` envelope, or the candidate text. -/
inductive EndpointOutcome where
  | httpError (msg : Str)
  | badEnvelope
  | text (t : Str)
deriving DecidableEq, Repr

/-- The external world `callGeminiAPI` interacts with: the outcome of
fetching each endpoint URL with a given request text, and the behaviour of
`JSON.parse` on a payload string (success with the parsed response, or a
`SyntaxError` message). -/
structure NetEnv where
  fetchOutcome : Str → Str → EndpointOutcome
  parse : Str → Except Str GeminiResponse

/-- JavaScript whitespace test used by `String.prototype.trim` (the
characters relevant to this code path). -/
def wsChar (c : Char) : Bool :=
  c == ' ' || c == '\t' || c == '\n' || c == '\r'

/-- `String.prototype.trim`: strip leading and trailing whitespace. -/
def jsTrim (s : Str) : Str :=
  ((s.dropWhile wsChar).reverse.dropWhile wsChar).reverse

/-- The substring matched by the greedy regular expression
`/\x7b[\s\S]*\x7d/` (leftmost match, greedy star): drop everything before
the first opening brace, then drop everything after the last closing brace
of what remains.  Empty when there is no opening brace followed by a
closing brace. -/
def braceSlice (s : Str) : Str :=
  ((s.dropWhile (fun c => c != openBrace)).reverse.dropWhile
    (fun c => c != closeBrace)).reverse

/-- Lines 156-160 of the source: `jsonText` is the regex match when one
exists, otherwise the raw response text itself. -/
def extractJson (s : Str) : Str :=
  if braceSlice s = [] then s else braceSlice s

/-- Modelled from the spec: "Extract the first brace-delimited JSON object
found anywhere in the returned text" with, per the design notes, "multiple
candidate objects — pick the first well-formed one": the substring from
the first opening brace through the first closing brace after it.  This
definition follows the specification wording and exists only to be
compared with `extractJson`, the definition taken from the source. -/
def firstBraceObject (s : Str) : Str :=
  let t := s.dropWhile (fun c => c != openBrace)
  if closeBrace ∈ t then t.takeWhile (fun c => c != closeBrace) ++ [closeBrace]
  else []

/-- JavaScript falsiness of the `GEMINI_API_KEY` value: `undefined` and
the empty string are falsy. -/
def jsFalsy : Option Str → Bool
  | none => true
  | some s => s.isEmpty

/-- First endpoint variant URL. -/
def url1 : Str :=
  "https://generativelanguage.googleapis.com/v1beta/models/gemini-1.5-flash:generateContent".toList

/-- Second endpoint variant URL. -/
def url2 : Str :=
  "https://generativelanguage.googleapis.com/v1beta/models/gemini-1.5-pro:generateContent".toList

/-- Third endpoint variant URL. -/
def url3 : Str :=
  "https://generativelanguage.googleapis.com/v1/models/gemini-1.5-flash:generateContent".toList

/-- The ordered list of endpoint variants (lines 110-114 of the source). -/
def endpoints : List Str := [url1, url2, url3]

/-- One iteration of the endpoint loop body (lines 119-171): fetch the
endpoint; a non-ok HTTP response or a missing candidate envelope records
an error; otherwise the candidate text is trimmed, the JSON payload is
extracted with the brace regex, and `JSON.parse` is attempted on it. -/
def attemptEndpoint (env : NetEnv) (text : Str) (url : Str) :
    Except JsErr GeminiResponse :=
  match env.fetchOutcome url text with
  | .httpError msg => .error (.transport msg)
  | .badEnvelope => .error .shape
  | .text t =>
    match env.parse (extractJson (jsTrim t)) with
    | .ok r => .ok r
    | .error msg => .error (.parse msg)

/-- The endpoint loop (lines 116-175): try each URL in order, remembering
the last error; return on the first success; after exhaustion, throw the
last error (or a fresh error if none was recorded).  Also returns the list
of URLs actually attempted, in order. -/
def tryEndpoints (env : NetEnv) (text : Str) :
    List Str → Option JsErr → Except JsErr GeminiResponse × List Str
  | [], lastError => (.error (lastError.getD .exhausted), [])
  | url :: rest, _lastError =>
    match attemptEndpoint env text url with
    | .ok r => (.ok r, [url])
    | .error e =>
      let res := tryEndpoints env text rest (some e)
      (res.1, url :: res.2)

/-- `callGeminiAPI` (lines 60-176): throw the configuration error when the
API key is falsy, before any network attempt; otherwise run the endpoint
loop over the three variants. -/
def callGeminiAPI (env : NetEnv) (apiKey : Option Str) (contractText : Str) :
    Except JsErr GeminiResponse × List Str :=
  if jsFalsy apiKey then (.error .config, [])
  else tryEndpoints env contractText endpoints none

/-- The input-size threshold (`maxLength`, line 180). -/
def maxLength : Nat := 50000

/-- The truncation marker appended to over-long inputs (line 182). -/
def truncationMarker : Str :=
  "\n\n[... contract truncated due to length ...]".toList

/-- Lines 181-183: keep the text verbatim when within the threshold,
otherwise keep the first `maxLength` characters and append the marker. -/
def truncateText (text : Str) : Str :=
  if text.length > maxLength then text.take maxLength ++ truncationMarker
  else text

/-- Lines 189-193: build a `ClausePattern` from a raw clause by spreading
its fields, setting `keywords` to the empty list, and passing `category`
through (the source's `as` cast is a compile-time assertion with no
runtime effect; `severity` is spread through unchanged as well). -/
def toClausePattern (rc : RawClause) : ClausePattern :=
  { id := rc.id
    category := rc.category
    name := rc.name
    description := rc.description
    keywords := []
    isMalicious := rc.isMalicious
    severity := rc.severity
    legalReference := rc.legalReference
    explanation := rc.explanation }

/-- Lines 188-196: map one raw flagged clause to the canonical shape. -/
def toFlaggedClause (fc : RawFlaggedClause) : FlaggedClause :=
  { clause := toClausePattern fc.clause
    matchedText := fc.matchedText
    position := fc.position }

/-- Lines 188-204 of `analyzeContract`: the conversion of the parsed
response into an `AnalysisResult`.  No field is validated; the only
possible failures are runtime `TypeError`s, raised when
`geminiResponse.flaggedClauses` is `undefined` (the `.map` call, evaluated
first) or `geminiResponse.recommendations` is `undefined` (the `.slice`
call).  `summary`, `keyDetails` and `overallRiskScore` are copied through
unchanged, present or not. -/
def normalizeGemini (g : GeminiResponse) : Except JsErr AnalysisResult :=
  match g.flaggedClauses with
  | none => .error (.typeError "undefined has no method map".toList)
  | some fcs =>
    match g.recommendations with
    | none => .error (.typeError "undefined has no method slice".toList)
    | some recs =>
      .ok { summary := g.summary
            keyDetails := g.keyDetails
            flaggedClauses := fcs.map toFlaggedClause
            overallRiskScore := g.overallRiskScore
            recommendations := recs.take 5 }

/-- `analyzeContract` (lines 178-205): truncate the input, call the remote
client with the truncated text, convert the response.  An error from
`callGeminiAPI` propagates to the caller unchanged — there is no catch and
no fallback call in this function.  The attempted-URL trace of the remote
call is returned alongside. -/
def analyzeContract (env : NetEnv) (apiKey : Option Str) (text : Str) :
    Except JsErr AnalysisResult × List Str :=
  let r := callGeminiAPI env apiKey (truncateText text)
  match r.1 with
  | .error e => (.error e, r.2)
  | .ok g =>
    match normalizeGemini g with
    | .error e => (.error e, r.2)
    | .ok res => (.ok res, r.2)

/-! ## Concrete inputs used by counterexamples and witnesses -/

/-- A parsed response whose raw `overallRiskScore` is 150. -/
def gScore150 : GeminiResponse :=
  { summary := some ['s']
    keyDetails := some []
    flaggedClauses := some []
    overallRiskScore := some (.num 150)
    recommendations := some [] }

/-- A parsed response whose raw `overallRiskScore` is -10. -/
def gScoreNeg10 : GeminiResponse :=
  { summary := some ['s']
    keyDetails := some []
    flaggedClauses := some []
    overallRiskScore := some (.num (-10))
    recommendations := some [] }

/-- A raw flagged clause whose `category` is outside the enumeration. -/
def bogusClause : RawFlaggedClause :=
  { clause :=
      { id := ['c']
        category := "bogus_category".toList
        name := ['n']
        description := ['d']
        isMalicious := true
        severity := "low".toList
        legalReference := none
        explanation := ['e'] }
    matchedText := ['m']
    position := 0 }

/-- A parsed response carrying the out-of-enumeration flagged clause. -/
def gBogus : GeminiResponse :=
  { summary := some ['s']
    keyDetails := some []
    flaggedClauses := some [bogusClause]
    overallRiskScore := some (.num 10)
    recommendations := some [] }

/-- A raw flagged clause with in-enumeration `category` and `severity`. -/
def rentClause : RawFlaggedClause :=
  { clause :=
      { id := ['r']
        category := "rent".toList
        name := ['n']
        description := ['d']
        isMalicious := false
        severity := "high".toList
        legalReference := some ['s']
        explanation := ['e'] }
    matchedText := ['m']
    position := 3 }

/-- A parsed response whose `summary` and `overallRiskScore` are entirely
missing, while `flaggedClauses` and `recommendations` are present. -/
def gNoSummary : GeminiResponse :=
  { summary := none
    keyDetails := none
    flaggedClauses := some []
    overallRiskScore := none
    recommendations := some [] }

/-- Eight recommendation strings. -/
def recs8 : List Str :=
  [['a'], ['b'], ['c'], ['d'], ['e'], ['f'], ['g'], ['h']]

/-- A parsed response with eight recommendations. -/
def gRecs8 : GeminiResponse :=
  { summary := some ['s']
    keyDetails := some []
    flaggedClauses := some [rentClause]
    overallRiskScore := some (.num 50)
    recommendations := some recs8 }

/-- An input of 50001 characters, one over the truncation threshold. -/
def longText : Str := List.replicate 50001 'a'

/-- An environment in which every endpoint fetch fails at the HTTP level
and every parse fails: the remote path cannot succeed. -/
def envC1 : NetEnv :=
  { fetchOutcome := fun _ _ => .httpError ['5', '0', '0']
    parse := fun _ => .error ['e'] }

/-! ## Claim C5: truncation policy -/

/-- Claim C5: an input of length at most the threshold is passed to the
remote client verbatim; a longer input is cut to exactly the first
`maxLength` characters followed by the truncation marker, so the total
length is the threshold plus the marker length. -/
theorem truncateText_spec (text : Str) :
    (text.length ≤ maxLength → truncateText text = text) ∧
    (maxLength < text.length →
      truncateText text = text.take maxLength ++ truncationMarker ∧
      (truncateText text).length = maxLength + truncationMarker.length) := by
  constructor
  · intro h
    simp [truncateText, Nat.not_lt.mpr h]
  · intro h
    have ht : truncateText text = text.take maxLength ++ truncationMarker := by
      simp [truncateText, h]
    refine ⟨ht, ?_⟩
    rw [ht]
    simp [List.length_append, List.length_take, Nat.min_eq_left (Nat.le_of_lt h)]

/-- Witness for claim C5, at a one-character input and at a 50001-character
input. -/
theorem truncateText_spec_wit :
    truncateText ['a'] = ['a'] ∧
    (truncateText longText).length = maxLength + truncationMarker.length :=
  ⟨(truncateText_spec ['a']).1 (by decide),
   ((truncateText_spec longText).2
     (by simp only [longText, List.length_replicate, maxLength]; omega)).2⟩

/-! ## Claim C10: missing credential fails fast -/

/-- Claim C10: with a falsy API key (absent or empty), the analysis fails
with the configuration error and the attempted-endpoint trace is empty —
no network attempt is made, and no fallback result is produced. -/
theorem missing_key_config_error (env : NetEnv) (apiKey : Option Str)
    (text : Str) (h : jsFalsy apiKey = true) :
    analyzeContract env apiKey text = (.error .config, []) := by
  simp [analyzeContract, callGeminiAPI, h]

/-- Witness for claim C10: key entirely absent. -/
theorem missing_key_config_error_wit :
    analyzeContract envC1 none ['t'] = (.error .config, []) :=
  missing_key_config_error envC1 none ['t'] (by rfl)

/-! ## Claim C2: risk score is not clamped -/

/-- Counterexample to claim C2: a raw `overallRiskScore` of 150 is
normalized to 150, not to the claimed clamp bound 100. -/
theorem overallRiskScore_not_clamped_cex :
    (normalizeGemini gScore150).toOption.map AnalysisResult.overallRiskScore
      = some (some (.num 150)) ∧ Jval.num 150 ≠ Jval.num 100 :=
  ⟨rfl, by decide⟩

/-- Claim C2 (amended): normalization copies `overallRiskScore` through
unchanged — no clamping into [0, 100] is performed, so a raw 150 stays 150
and a raw -10 stays -10. -/
theorem overallRiskScore_passthrough (g : GeminiResponse)
    (fcs : List RawFlaggedClause) (recs : List Str)
    (h1 : g.flaggedClauses = some fcs) (h2 : g.recommendations = some recs) :
    ∃ res, normalizeGemini g = .ok res ∧
      res.overallRiskScore = g.overallRiskScore := by
  simp only [normalizeGemini, h1, h2]
  exact ⟨_, rfl, rfl⟩

/-- Witness for claim C2, at the raw score -10 (the claimed lower clamp
bound, likewise passed through). -/
theorem overallRiskScore_passthrough_wit :
    ∃ res, normalizeGemini gScoreNeg10 = .ok res ∧
      res.overallRiskScore = gScoreNeg10.overallRiskScore :=
  overallRiskScore_passthrough gScoreNeg10 [] [] rfl rfl

/-! ## Claim C3: category and severity are passed through unvalidated -/

/-- Counterexample to claim C3: the out-of-enumeration category
`bogus_category` is passed through into the normalized `ClausePattern`
without rejection and without coercion to `other`. -/
theorem category_passthrough_cex :
    (normalizeGemini gBogus).toOption.map
        (fun r => r.flaggedClauses.map (fun f => f.clause.category))
      = some ["bogus_category".toList] ∧
    validCategory "bogus_category".toList = false :=
  ⟨rfl, by rfl⟩

/-- Claim C3 (amended): normalization neither rejects nor coerces the raw
`category` and `severity` values — the source narrows `category` with a
compile-time type assertion only, so any runtime value, including values
outside the enumerations, flows unchanged into the normalized
`ClausePattern`. -/
theorem category_severity_passthrough (g : GeminiResponse)
    (fcs : List RawFlaggedClause) (recs : List Str)
    (h1 : g.flaggedClauses = some fcs) (h2 : g.recommendations = some recs) :
    ∃ res, normalizeGemini g = .ok res ∧
      res.flaggedClauses.map (fun f => f.clause.category)
        = fcs.map (fun f => f.clause.category) ∧
      res.flaggedClauses.map (fun f => f.clause.severity)
        = fcs.map (fun f => f.clause.severity) := by
  simp only [normalizeGemini, h1, h2]
  refine ⟨_, rfl, ?_, ?_⟩ <;>
    simp [List.map_map, Function.comp, toFlaggedClause, toClausePattern]

/-- Witness for claim C3, at a clause with in-enumeration values. -/
theorem category_severity_passthrough_wit :
    ∃ res, normalizeGemini gRecs8 = .ok res ∧
      res.flaggedClauses.map (fun f => f.clause.category)
        = [rentClause].map (fun f => f.clause.category) ∧
      res.flaggedClauses.map (fun f => f.clause.severity)
        = [rentClause].map (fun f => f.clause.severity) :=
  category_severity_passthrough gRecs8 [rentClause] recs8 rfl rfl

/-! ## Claim C8: required fields are not checked -/

/-- Counterexample to claim C8: with `summary` and `overallRiskScore` both
entirely missing, normalization still succeeds and copies the absent
values through, instead of failing with a malformed-result error. -/
theorem normalize_missing_summary_ok_cex :
    (normalizeGemini gNoSummary).toOption.map
        (fun r => (r.summary, r.overallRiskScore))
      = some (none, none) :=
  rfl

/-- Claim C8 (amended): normalization performs no required-field check and
no type coercion: whenever `flaggedClauses` and `recommendations` are
present, it succeeds, and `summary`, `keyDetails` and `overallRiskScore`
are copied through verbatim — absent values included. -/
theorem normalize_no_required_field_check (g : GeminiResponse)
    (fcs : List RawFlaggedClause) (recs : List Str)
    (h1 : g.flaggedClauses = some fcs) (h2 : g.recommendations = some recs) :
    ∃ res, normalizeGemini g = .ok res ∧
      res.summary = g.summary ∧
      res.keyDetails = g.keyDetails ∧
      res.overallRiskScore = g.overallRiskScore := by
  simp only [normalizeGemini, h1, h2]
  exact ⟨_, rfl, rfl, rfl, rfl⟩

/-- Witness for claim C8, at the response with both required fields
missing. -/
theorem normalize_no_required_field_check_wit :
    ∃ res, normalizeGemini gNoSummary = .ok res ∧
      res.summary = gNoSummary.summary ∧
      res.keyDetails = gNoSummary.keyDetails ∧
      res.overallRiskScore = gNoSummary.overallRiskScore :=
  normalize_no_required_field_check gNoSummary [] [] rfl rfl

/-! ## Claim C9: recommendations are cut to the first five -/

/-- Claim C9: the normalized recommendations are exactly the first
`min 5 n` entries of the raw list of length `n`, in original order, and a
list of at most five entries is passed through unpadded. -/
theorem recommendations_take_five (g : GeminiResponse)
    (fcs : List RawFlaggedClause) (recs : List Str)
    (h1 : g.flaggedClauses = some fcs) (h2 : g.recommendations = some recs) :
    ∃ res, normalizeGemini g = .ok res ∧
      res.recommendations = recs.take 5 ∧
      res.recommendations.length = min 5 recs.length ∧
      (∀ i : Nat, i < 5 → res.recommendations[i]? = recs[i]?) ∧
      (recs.length ≤ 5 → res.recommendations = recs) := by
  simp only [normalizeGemini, h1, h2]
  refine ⟨_, rfl, rfl, List.length_take .., ?_, ?_⟩
  · intro i hi
    exact List.getElem?_take_of_lt hi
  · intro hle
    exact List.take_of_length_le hle

/-- Witness for claim C9, at a raw list of eight recommendations. -/
theorem recommendations_take_five_wit :
    ∃ res, normalizeGemini gRecs8 = .ok res ∧
      res.recommendations = recs8.take 5 ∧
      res.recommendations.length = min 5 recs8.length ∧
      (∀ i : Nat, i < 5 → res.recommendations[i]? = recs8[i]?) ∧
      (recs8.length ≤ 5 → res.recommendations = recs8) :=
  recommendations_take_five gRecs8 [rentClause] recs8 rfl rfl

/-! ## The endpoint loop: first success wins, exhaustion carries the last
error -/

/-- Helper: if every URL in the first segment fails and `k` succeeds with
`r`, the loop stops at `k` with result `r`, having attempted exactly the
failing segment followed by `k` — the remaining URLs are never touched. -/
lemma tryEndpoints_ok_split (env : NetEnv) (text : Str) (k : Str)
    (r : GeminiResponse) (l₁ l₂ : List Str) (last : Option JsErr)
    (hfail : ∀ u ∈ l₁, ∃ e, attemptEndpoint env text u = .error e)
    (hok : attemptEndpoint env text k = .ok r) :
    tryEndpoints env text (l₁ ++ k :: l₂) last = (.ok r, l₁ ++ [k]) := by
  induction l₁ generalizing last with
  | nil => simp [tryEndpoints, hok]
  | cons u l₁ ih =>
    obtain ⟨e, he⟩ := hfail u (by simp)
    have ih2 := ih (some e) (fun v hv => hfail v (List.mem_cons_of_mem u hv))
    simp [tryEndpoints, he, ih2]

/-- Claim C4: the client attempts the ordered endpoint list strictly in
order; every per-endpoint failure (transport, envelope shape, or parse —
any recorded error) advances to the next variant, and the first variant
whose attempt succeeds ends the loop with that parsed response.  The
attempted-URL trace is exactly the failing ones followed by the winner, so
the later variants are never attempted. -/
theorem callGeminiAPI_first_success (env : NetEnv) (apiKey : Option Str)
    (text : Str) (l₁ l₂ : List Str) (k : Str) (r : GeminiResponse)
    (hk : jsFalsy apiKey = false)
    (hsplit : endpoints = l₁ ++ k :: l₂)
    (hfail : ∀ u ∈ l₁, ∃ e, attemptEndpoint env text u = .error e)
    (hok : attemptEndpoint env text k = .ok r) :
    callGeminiAPI env apiKey text = (.ok r, l₁ ++ [k]) := by
  simp only [callGeminiAPI, hk, Bool.false_eq_true, if_false, hsplit]
  exact tryEndpoints_ok_split env text k r l₁ l₂ none hfail hok

/-- The scenario of the specification's testable property for claim C4:
variant 1 fails at the HTTP level; variant 2 returns prose-wrapped JSON
that parses; variant 3 would also answer, but must never be reached. -/
def payloadC4 : Str := [openBrace, 'a', closeBrace]

/-- The prose-wrapped reply of variant 2: explanatory text, the JSON
payload, and a trailing newline. -/
def proseReply : Str := "Here is the result:\n".toList ++ payloadC4 ++ ['\n']

/-- The parsed response the witness environment returns. -/
def gC4 : GeminiResponse :=
  { summary := some ['o', 'k']
    keyDetails := some []
    flaggedClauses := some []
    overallRiskScore := some (.num 5)
    recommendations := some [] }

/-- Witness environment for claim C4: the first endpoint fails with an
HTTP error, the others return the prose-wrapped payload, and only the
exact extracted payload parses. -/
def envC4 : NetEnv :=
  { fetchOutcome := fun url _ =>
      if url = url1 then .httpError ['5', '0', '3'] else .text proseReply
    parse := fun s =>
      if s = payloadC4 then .ok gC4 else .error "SyntaxError".toList }

/-- Witness for claim C4: variant 1 fails, variant 2's prose-wrapped JSON
is extracted and parsed, variant 3 is never attempted. -/
theorem callGeminiAPI_first_success_wit :
    callGeminiAPI envC4 (some ['k']) ['t'] = (.ok gC4, [url1, url2]) :=
  callGeminiAPI_first_success envC4 (some ['k']) ['t'] [url1] [url3] url2 gC4
    (by rfl) (by rfl)
    (by
      intro u hu
      have hu1 : u = url1 := by simpa using hu
      exact ⟨.transport ['5', '0', '3'], by rw [hu1]; rfl⟩)
    (by rfl)

/-- Claim C7: when all three endpoint variants fail, the client's
operation fails with the error of the last attempt, and the trace shows
every variant was attempted in order — no per-endpoint error is surfaced
before exhaustion. -/
theorem callGeminiAPI_exhaustion_last_error (env : NetEnv)
    (apiKey : Option Str) (text : Str) (e1 e2 e3 : JsErr)
    (hk : jsFalsy apiKey = false)
    (h1 : attemptEndpoint env text url1 = .error e1)
    (h2 : attemptEndpoint env text url2 = .error e2)
    (h3 : attemptEndpoint env text url3 = .error e3) :
    callGeminiAPI env apiKey text = (.error e3, [url1, url2, url3]) := by
  simp [callGeminiAPI, hk, endpoints, tryEndpoints, h1, h2, h3]

/-- Witness environment for claim C7: the three variants fail in the three
distinct ways — HTTP failure, missing candidate envelope, and a response
text with no JSON payload so that the raw-text parse fails. -/
def envC7 : NetEnv :=
  { fetchOutcome := fun url _ =>
      if url = url1 then .httpError ['a']
      else if url = url2 then .badEnvelope
      else .text ['x']
    parse := fun _ => .error ['b'] }

/-- Witness for claim C7: a transport error, a shape error and a parse
error exhaust the variants; the surfaced error is the last one (the parse
error), and all three URLs appear in the trace. -/
theorem callGeminiAPI_exhaustion_last_error_wit :
    callGeminiAPI envC7 (some ['k']) ['t']
      = (.error (.parse ['b']), [url1, url2, url3]) :=
  callGeminiAPI_exhaustion_last_error envC7 (some ['k']) ['t']
    (.transport ['a']) .shape (.parse ['b'])
    (by rfl) (by rfl) (by rfl) (by rfl)

/-! ## Claim C1: no fallback in `analyzeContract` -/

/-- Claim C1 is a code bug: evaluating `analyzeContract` in an environment
where every endpoint fails shows the last endpoint error surfacing
unchanged to the caller — the function contains no catch and no call to a
keyword fallback analyzer, contradicting the repository README, which
documents a keyword-matching fallback when the remote analysis fails. -/
theorem analyzeContract_no_fallback :
    analyzeContract envC1 (some ['k']) ['c']
      = (.error (.transport ['5', '0', '0']), [url1, url2, url3]) := by
  rfl

/-! ## Claim C6: the extraction is greedy first-brace-to-last-brace -/

/-- Helper: structure of the greedy slice
`((s.dropWhile p).reverse.dropWhile q).reverse` when it is non-empty: it
starts with an element refuting `p`, ends with an element refuting `q`,
and splits `s` as a `p`-satisfying left part, the slice, and a
`q`-satisfying right part. -/
lemma greedy_slice_decomp {α : Type} (p q : α → Bool) (s : List α)
    (h : ((s.dropWhile p).reverse.dropWhile q).reverse ≠ []) :
    (∃ x, ((s.dropWhile p).reverse.dropWhile q).reverse.head? = some x ∧
      p x = false) ∧
    (∃ y, ((s.dropWhile p).reverse.dropWhile q).reverse.getLast? = some y ∧
      q y = false) ∧
    ∃ pre suf,
      s = pre ++ ((s.dropWhile p).reverse.dropWhile q).reverse ++ suf ∧
      (∀ c ∈ pre, p c = true) ∧ (∀ c ∈ suf, q c = true) := by
  have hmne : (s.dropWhile p).reverse.dropWhile q ≠ [] := by
    intro hnil
    apply h
    rw [hnil]
    rfl
  have hrev : ((s.dropWhile p).reverse.dropWhile q).reverse ++
      ((s.dropWhile p).reverse.takeWhile q).reverse = s.dropWhile p := by
    rw [← List.reverse_append, List.takeWhile_append_dropWhile,
      List.reverse_reverse]
  have hs : s.takeWhile p ++ s.dropWhile p = s :=
    List.takeWhile_append_dropWhile p s
  obtain ⟨c, cs, hc⟩ := List.exists_cons_of_ne_nil h
  obtain ⟨d, ds, hd⟩ := List.exists_cons_of_ne_nil hmne
  have hteq : s.dropWhile p =
      c :: (cs ++ ((s.dropWhile p).reverse.takeWhile q).reverse) := by
    conv_lhs => rw [← hrev, hc]
    rw [List.cons_append]
  have hpc : p c = false := by
    have h2 := List.head?_dropWhile_not p s
    rw [hteq] at h2
    simpa using h2
  have hqd : q d = false := by
    have h2 := List.head?_dropWhile_not q (s.dropWhile p).reverse
    rw [hd] at h2
    simpa using h2
  refine ⟨⟨c, by rw [hc]; rfl, hpc⟩,
          ⟨d, by rw [List.getLast?_reverse, hd]; rfl, hqd⟩,
          s.takeWhile p, ((s.dropWhile p).reverse.takeWhile q).reverse,
          ?_, ?_, ?_⟩
  · rw [List.append_assoc, hrev, hs]
  · intro e he
    exact List.mem_takeWhile_imp he
  · intro e he
    exact List.mem_takeWhile_imp (List.mem_reverse.mp he)

/-- Claim C6 (amended): the payload extraction is greedy
first-brace-to-last-brace, not first-object: when the text contains an
opening brace with a closing brace somewhere after it, the selected
substring starts at the first opening brace of the text (nothing before it
contains an opening brace), ends at the last closing brace (nothing after
it contains a closing brace), and so spans every brace-delimited object in
between; when no such pair exists, the extraction falls through to the raw
text itself. -/
theorem extractJson_first_to_last_brace (s : Str) :
    (braceSlice s = [] → extractJson s = s) ∧
    (braceSlice s ≠ [] →
      (extractJson s).head? = some openBrace ∧
      (extractJson s).getLast? = some closeBrace ∧
      ∃ p q, s = p ++ extractJson s ++ q ∧
        (∀ c ∈ p, c ≠ openBrace) ∧ (∀ c ∈ q, c ≠ closeBrace)) := by
  constructor
  · intro h
    simp [extractJson, h]
  · intro h
    have hex : extractJson s = braceSlice s := by
      simp [extractJson, h]
    have hbs : braceSlice s =
        ((s.dropWhile (fun c => c != openBrace)).reverse.dropWhile
          (fun c => c != closeBrace)).reverse := rfl
    have h' : ((s.dropWhile (fun c => c != openBrace)).reverse.dropWhile
        (fun c => c != closeBrace)).reverse ≠ [] := by
      rw [← hbs]
      exact h
    obtain ⟨⟨x, hx, hpx⟩, ⟨y, hy, hqy⟩, pre, suf, hdecomp, hpre, hsuf⟩ :=
      greedy_slice_decomp (fun c => c != openBrace)
        (fun c => c != closeBrace) s h'
    rw [hex, hbs]
    have hxo : x = openBrace := by simpa using hpx
    have hyc : y = closeBrace := by simpa using hqy
    refine ⟨by rw [hx, hxo], by rw [hy, hyc], pre, suf, hdecomp, ?_, ?_⟩
    · intro e he
      simpa using hpre e he
    · intro e he
      simpa using hsuf e he

/-- Text containing two brace-delimited objects with prose around and
between them. -/
def exC6 : Str :=
  ['x', openBrace, 'a', closeBrace, 'y', openBrace, 'b', closeBrace, 'z']

/-- Counterexample to claim C6: on a text with two brace-delimited
objects, the code's extraction takes the greedy span from the first
opening brace to the last closing brace — including the second object and
the prose between — and not the first brace-delimited object, which the
claim says is selected. -/
theorem extractJson_not_first_object_cex :
    firstBraceObject exC6 = [openBrace, 'a', closeBrace] ∧
    extractJson exC6 =
      [openBrace, 'a', closeBrace, 'y', openBrace, 'b', closeBrace] ∧
    extractJson exC6 ≠ firstBraceObject exC6 :=
  ⟨by decide, by decide, by decide⟩

/-- Prose-wrapped text with a single object, for the witness. -/
def exProse : Str := ['h', 'i', ' ', openBrace, 'a', closeBrace, '\n']

/-- Witness for claim C6, at a brace-free text (fall-through) and at a
prose-wrapped single object. -/
theorem extractJson_first_to_last_brace_wit :
    extractJson ['a', 'b'] = ['a', 'b'] ∧
    ((extractJson exProse).head? = some openBrace ∧
     (extractJson exProse).getLast? = some closeBrace ∧
     ∃ p q, exProse = p ++ extractJson exProse ++ q ∧
       (∀ c ∈ p, c ≠ openBrace) ∧ (∀ c ∈ q, c ≠ closeBrace)) :=
  ⟨(extractJson_first_to_last_brace ['a', 'b']).1 (by decide),
   (extractJson_first_to_last_brace exProse).2 (by decide)⟩

end RentRescue
